import Mathlib

/-!
Shallow embedding of the Waverider audio analysis engine
(`src/backend/src/services/analysisEngine.js`) and proofs about it.

Modelling conventions:
* JS numbers are modelled exactly: samples, thresholds and profile parameters
  are rationals (`ℚ`); values produced by `Math.sqrt` / `Math.log10` / `Math.cos`
  live in `ℝ`.  IEEE-754 rounding, `NaN` and `Infinity` are not modelled; in
  particular `ℚ` division by zero yields `0` where JS yields `NaN`/`Infinity`
  (flagged at each definition where it can occur).
* `uuidv4()` and `new Date().toISOString()` are nondeterministic inputs of the
  orchestration; they are modelled by explicit parameters: a stream
  `gen : ℕ → String` of fresh identifiers (consumed in call order) and a
  `timestamp : String`.
* `for` loops over windows become explicit lists of start offsets
  (`windowStarts`); a JS loop whose step is `0` (possible when a window size
  floors to `0`) never terminates and is modelled as producing no windows —
  theorems that depend on the window grid assume a positive window size.
* Errors thrown by JS code are modelled with `Except String`, the message
  playing the role of `Error.message`.
-/

namespace Waverider

/-- JS `x || d` applied to an optional numeric field: `0` (and absent) are
falsy, any other number is returned unchanged. -/
def jsOr (v : Option ℚ) (d : ℚ) : ℚ :=
  match v with
  | none => d
  | some x => if x = 0 then d else x

/-- JS `Math.log10`. -/
noncomputable def log10 (x : ℝ) : ℝ := Real.log x / Real.log 10

/-- JS `Array.prototype.slice(a, b)` for in-range non-negative indices. -/
def jsSlice (l : List ℚ) (a b : ℕ) : List ℚ := (l.drop a).take (b - a)

/-- The start offsets visited by `for (let i = 0; i < len - ws; i += ws)`
(strict bound, so the window starting exactly at `len - ws` is not visited).
`ws = 0` (a non-terminating JS loop) is modelled as no windows. -/
def windowStarts (len ws : ℕ) : List ℕ := List.range' 0 ((len - 1) / ws) ws

/-- The open parameter bag of a profile; absent fields are `none`. -/
structure ProfileParameters where
  windowSize : Option ℚ := none
  maxAmplitude : Option ℚ := none
  minAmplitude : Option ℚ := none
  sensitivity : Option ℚ := none

/-- A classification profile (`profile.type` is the raw string the source
switches on; unknown strings fall to the `default` arm). -/
structure Profile where
  id : String
  type : String
  parameters : ProfileParameters

/-- Analysis options, with the source's defaults applied at each use site
exactly as the source does (destructuring default vs `||`). -/
structure Options where
  windowSize : Option ℚ := none
  fftSize : Option ℕ := none
  sampleRate : Option ℚ := none
  threshold : Option ℚ := none
  minDuration : Option ℚ := none
  profiles : List Profile := []

/-- Result of `analyzeAmplitude`. -/
structure AmplitudeResults where
  rms : ℝ
  peak : ℚ
  average : ℚ
  dynamicRange : ℝ
  crestFactor : ℝ
  zeroCrossings : ℕ

/-- Accumulated `sum` of `Math.abs(audioData[i])`. -/
def absSum (audioData : List ℚ) : ℚ := (audioData.map (fun x => |x|)).sum

/-- Accumulated `sumSquares` (`sample * sample` with `sample = Math.abs(x)`). -/
def absSumSquares (audioData : List ℚ) : ℚ := (audioData.map (fun x => |x| * |x|)).sum

/-- Accumulated `peak = Math.max(peak, sample)`, starting from `0`. -/
def peakVal (audioData : List ℚ) : ℚ := audioData.foldl (fun p x => max p |x|) 0

/-- Zero crossings: count of `i > 0` with `(x[i] >= 0) !== (x[i-1] >= 0)`. -/
def countZeroCrossings : List ℚ → ℕ
  | [] => 0
  | [_] => 0
  | a :: b :: rest =>
    (if (decide (0 ≤ b)) ≠ (decide (0 ≤ a)) then 1 else 0) + countZeroCrossings (b :: rest)

/-- `analyzeAmplitude(audioData)`.  The source performs no validation: a
zero-length window divides by zero (JS `NaN`, here `ℚ`'s total `x / 0 = 0`)
and non-finite samples are not representable in this exact model.  The unused
destructured `windowSize` option is omitted. -/
noncomputable def analyzeAmplitude (audioData : List ℚ) : AmplitudeResults :=
  let n : ℚ := audioData.length
  let peak := peakVal audioData
  let rms : ℝ := Real.sqrt ((absSumSquares audioData / n : ℚ) : ℝ)
  { rms := rms
    peak := peak
    average := absSum audioData / n
    dynamicRange := if 0 < peak then 20 * log10 ((peak : ℝ) / rms) else 0
    crestFactor := if 0 < peak then (peak : ℝ) / rms else 0
    zeroCrossings := countZeroCrossings audioData }

/-- `calculateRMS(data)` (squares the raw samples, no `Math.abs`). -/
noncomputable def calculateRMS (data : List ℚ) : ℝ :=
  Real.sqrt (((data.map (fun x => x * x)).sum / (data.length : ℚ) : ℚ) : ℝ)

/-- `calculateVariance(data)`: population variance of the raw samples. -/
def calculateVariance (data : List ℚ) : ℚ :=
  let mean := data.sum / data.length
  (data.map (fun v => (v - mean) ^ 2)).sum / data.length

/-- `detectTransition(window, parameters)`. -/
def detectTransition (window : List ℚ) (parameters : ProfileParameters) : Prop :=
  jsOr parameters.sensitivity (1/2) < calculateVariance window

instance (window : List ℚ) (parameters : ProfileParameters) :
    Decidable (detectTransition window parameters) := by
  unfold detectTransition; infer_instance

/-- The `switch (profile.type)` match predicate of `applyProfile`. -/
noncomputable def profileMatches (profile : Profile) (analysis : AmplitudeResults)
    (window : List ℚ) : Bool :=
  if profile.type = "quiet" then
    decide (analysis.rms < ((jsOr profile.parameters.maxAmplitude (1/10) : ℚ) : ℝ))
  else if profile.type = "intensity" then
    decide (((jsOr profile.parameters.minAmplitude (7/10) : ℚ) : ℝ) < analysis.rms)
  else if profile.type = "transition" then
    decide (detectTransition window profile.parameters)
  else
    false

/-- `calculateConfidence(analysis, profile)`. -/
noncomputable def calculateConfidence (analysis : AmplitudeResults) (profile : Profile) : ℝ :=
  let confidence : ℝ :=
    if profile.type = "quiet" then
      max 0 (1 - analysis.rms / ((jsOr profile.parameters.maxAmplitude (1/10) : ℚ) : ℝ))
    else if profile.type = "intensity" then
      min 1 (analysis.rms / ((jsOr profile.parameters.minAmplitude (7/10) : ℚ) : ℝ))
    else (1/2 : ℝ)
  max 0 (min 1 confidence)

/-- A detected region (`end` is the source's field name). -/
structure Region where
  id : String
  start : ℚ
  «end» : ℚ
  profile : String
  confidence : ℝ
  data : AmplitudeResults

/-- `Math.floor((profile.parameters.windowSize || 1.0) * sampleRate)`, clamped
to `ℕ` (negative floors, JS nonsense loops, are modelled as `0`). -/
def profileWindowSamples (profile : Profile) (sampleRate : ℚ) : ℕ :=
  (⌊jsOr profile.parameters.windowSize 1 * sampleRate⌋).toNat

/-- The loop body of `applyProfile` over the remaining window starts; `next`
is the index of the next unconsumed `uuidv4()` in the stream `gen`.  Returns
the emitted regions together with the updated stream position. -/
noncomputable def applyProfileAux (gen : ℕ → String) (audioData : List ℚ) (profile : Profile)
    (sampleRate : ℚ) (ws : ℕ) : List ℕ → ℕ → List Region × ℕ
  | [], next => ([], next)
  | i :: rest, next =>
    let window := jsSlice audioData i (i + ws)
    let analysis := analyzeAmplitude window
    if profileMatches profile analysis window then
      let r : Region :=
        { id := gen next
          start := (i : ℚ) / sampleRate
          «end» := ((i : ℚ) + ws) / sampleRate
          profile := profile.id
          confidence := calculateConfidence analysis profile
          data := analysis }
      let res := applyProfileAux gen audioData profile sampleRate ws rest (next + 1)
      (r :: res.1, res.2)
    else
      applyProfileAux gen audioData profile sampleRate ws rest next

/-- `applyProfile(audioData, profile, sampleRate)`. -/
noncomputable def applyProfile (gen : ℕ → String) (next : ℕ) (audioData : List ℚ)
    (profile : Profile) (sampleRate : ℚ) : List Region × ℕ :=
  let ws := profileWindowSamples profile sampleRate
  applyProfileAux gen audioData profile sampleRate ws (windowStarts audioData.length ws) next

/-- `detectRegions(audioData, options)`: one `applyProfile` pass per profile,
regions concatenated in profile order. -/
noncomputable def detectRegions (gen : ℕ → String) (next : ℕ) (audioData : List ℚ)
    (options : Options) : List Region × ℕ :=
  let sampleRate := options.sampleRate.getD 44100
  options.profiles.foldl
    (fun acc profile =>
      let res := applyProfile gen acc.2 audioData profile sampleRate
      (acc.1 ++ res.1, res.2))
    ([], next)

/-- One entry of `quietSections` / `loudSections`. -/
structure PatternSection where
  start : ℚ
  «end» : ℚ
  rms : ℝ

/-- One entry of `transitions`. -/
structure PatternTransition where
  time : ℚ
  change : ℝ
  direction : String

/-- Result of `detectPatterns`. -/
structure PatternResults where
  quietSections : List PatternSection
  loudSections : List PatternSection
  transitions : List PatternTransition
  repetitivePatterns : List Unit

/-- `detectTransitions(audioData, sampleRate, threshold)`: the loop
`for (let i = ws; i < len - ws; i += ws)` over 100 ms windows. -/
noncomputable def detectTransitions (audioData : List ℚ) (sampleRate threshold : ℚ) :
    List PatternTransition :=
  let ws := (⌊(1/10 : ℚ) * sampleRate⌋).toNat
  let starts := List.range' ws ((audioData.length - 1) / ws - 1) ws
  starts.filterMap (fun i =>
    let buffBefore := calculateRMS (jsSlice audioData (i - ws) i)
    let buffAfter := calculateRMS (jsSlice audioData i (i + ws))
    let change := |buffAfter - buffBefore|
    if (threshold : ℝ) < change then
      some { time := (i : ℚ) / sampleRate
             change := change
             direction := if buffBefore < buffAfter then "increasing" else "decreasing" }
    else none)

/-- `detectPatterns(audioData, options)`.  `threshold` / `minDuration` use JS
destructuring defaults; `sampleRate` uses `options.sampleRate || 44100`. -/
noncomputable def detectPatterns (audioData : List ℚ) (options : Options) : PatternResults :=
  let threshold := options.threshold.getD (1/10)
  let minDuration := options.minDuration.getD (1/10)
  let sampleRate := jsOr options.sampleRate 44100
  let ws := (⌊minDuration * sampleRate⌋).toNat
  let starts := windowStarts audioData.length ws
  { quietSections := starts.filterMap (fun i =>
      let rms := calculateRMS (jsSlice audioData i (i + ws))
      if rms < (threshold : ℝ) then
        some { start := (i : ℚ) / sampleRate, «end» := ((i : ℚ) + ws) / sampleRate, rms := rms }
      else none)
    loudSections := starts.filterMap (fun i =>
      let rms := calculateRMS (jsSlice audioData i (i + ws))
      if rms < (threshold : ℝ) then none
      else if ((7 : ℝ)/10) < rms then
        some { start := (i : ℚ) / sampleRate, «end» := ((i : ℚ) + ws) / sampleRate, rms := rms }
      else none)
    transitions := detectTransitions audioData sampleRate threshold
    repetitivePatterns := [] }

/-- One entry of `dominantFrequencies`. -/
structure DominantFrequency where
  frequency : ℚ
  magnitude : ℝ

/-- Stable descending insertion used to model the JS stable
`sort((a, b) => b.magnitude - a.magnitude)`: an element is placed after every
already-placed element of greater-or-equal magnitude. -/
noncomputable def insertByMagnitude (x : DominantFrequency) :
    List DominantFrequency → List DominantFrequency
  | [] => [x]
  | y :: ys => if y.magnitude < x.magnitude then x :: y :: ys else y :: insertByMagnitude x ys

/-- Sort descending by magnitude (stable, as JS `Array.prototype.sort`). -/
noncomputable def sortByMagnitudeDesc (l : List DominantFrequency) : List DominantFrequency :=
  l.foldl (fun acc x => insertByMagnitude x acc) []

/-- `findDominantFrequencies(magnitudes, sampleRate, fftSize)`:
threshold is 10% of the maximum magnitude over the whole list, candidates are
the bins `i` with `i < magnitudes.length / 2` (JS real division, i.e.
`2 * i < magnitudes.length`), sorted descending by magnitude, top 5.
An empty magnitude list yields `[]` (as in JS, where the loop body never runs). -/
noncomputable def findDominantFrequencies (magnitudes : List ℝ) (sampleRate : ℚ)
    (fftSize : ℕ) : List DominantFrequency :=
  match magnitudes.max? with
  | none => []
  | some maxMag =>
    let threshold := maxMag * (1/10)
    let frequencies := (List.range ((magnitudes.length + 1) / 2)).filterMap (fun i =>
      if threshold < magnitudes.getD i 0 then
        some { frequency := (i : ℚ) * sampleRate / (fftSize : ℚ)
               magnitude := magnitudes.getD i 0 }
      else none)
    (sortByMagnitudeDesc frequencies).take 5

/-- The three frequency bands. -/
structure FrequencyBands where
  bass : ℝ
  mid : ℝ
  treble : ℝ

/-- Result of `analyzeSpectral`. `spectralRolloff` and `spectralFlux` are
initialised to `0` and never updated by the source. -/
structure SpectralResults where
  spectralCentroid : ℝ
  spectralRolloff : ℝ
  spectralFlux : ℝ
  dominantFrequencies : List DominantFrequency
  frequencyBands : FrequencyBands

/-- `applyWindow(data)`: Hann window `0.5 * (1 - cos(2πi/(N-1)))` applied
elementwise (for `N = 1` JS produces `NaN`; here `2π·0/0 = 0`). -/
noncomputable def applyWindow (data : List ℚ) : List ℝ :=
  (List.range data.length).map (fun (i : ℕ) =>
    ((data.getD i 0 : ℚ) : ℝ) *
      (1/2 * (1 - Real.cos ((2 * Real.pi * i) / ((data.length : ℝ) - 1)))))

/-- `n` is a power of two (decidably; `n = 2 ^ k` forces `k < n + 1`). -/
def isPowTwo (n : ℕ) : Bool := (List.range (n + 1)).any (fun k => n == 2 ^ k)

/-- Modelled from the spec: the forward FFT of the external `fft-js` package
(its source is not part of this repository).  Per the spec the transform size
must be a power of two (`InvalidFFTSize` otherwise) and bin `k` of a
successful transform is the DFT value `Σ_n x_n · e^(-2πikn/N)` as a
(real, imaginary) pair. -/
noncomputable def fftModel (v : List ℝ) : Except String (List (ℝ × ℝ)) :=
  if isPowTwo v.length then
    .ok ((List.range v.length).map (fun (k : ℕ) =>
      (((List.range v.length).map (fun (n : ℕ) =>
          v.getD n 0 * Real.cos (2 * Real.pi * k * n / v.length))).sum,
       -((List.range v.length).map (fun (n : ℕ) =>
          v.getD n 0 * Real.sin (2 * Real.pi * k * n / v.length))).sum)))
  else
    .error "InvalidFFTSize"

/-- `calculateBandEnergy(magnitudes, start, stop)`: sum of squared magnitudes
over `start ≤ i < stop` (out-of-range reads are modelled as `0`; in JS they
would poison the sum with `NaN`, which this exact model cannot represent). -/
noncomputable def calculateBandEnergy (magnitudes : List ℝ) (start stop : ℕ) : ℝ :=
  ((List.range' start (stop - start)).map (fun i =>
    magnitudes.getD i 0 * magnitudes.getD i 0)).sum

/-- `analyzeSpectral(audioData, options)`: Hann window the first `fftSize`
samples, FFT, magnitudes, centroid, bands, dominant frequencies.  The only
failure source is the FFT size check. -/
noncomputable def analyzeSpectral (audioData : List ℚ) (options : Options) :
    Except String SpectralResults :=
  let fftSize := options.fftSize.getD 2048
  let sampleRate := options.sampleRate.getD 44100
  let windowedData := applyWindow (audioData.take fftSize)
  match fftModel windowedData with
  | .error e => .error e
  | .ok fftResult =>
    let magnitudes := fftResult.map (fun c => Real.sqrt (c.1 * c.1 + c.2 * c.2))
    let weightedSum := ((List.range magnitudes.length).map (fun (i : ℕ) =>
        (((i : ℚ) * sampleRate / (fftSize : ℚ) : ℚ) : ℝ) * magnitudes.getD i 0)).sum
    let magnitudeSum := magnitudes.sum
    let bassEnd := (⌊((fftSize : ℚ) * 250 / sampleRate : ℚ)⌋).toNat
    let midEnd := (⌊((fftSize : ℚ) * 4000 / sampleRate : ℚ)⌋).toNat
    .ok { spectralCentroid := if 0 < magnitudeSum then weightedSum / magnitudeSum else 0
          spectralRolloff := 0
          spectralFlux := 0
          dominantFrequencies := findDominantFrequencies magnitudes sampleRate fftSize
          frequencyBands :=
            { bass := calculateBandEnergy magnitudes 0 bassEnd
              mid := calculateBandEnergy magnitudes bassEnd midEnd
              treble := calculateBandEnergy magnitudes midEnd ((magnitudes.length + 1) / 2) } }

/-- The `analysis` sub-object of an orchestration result. -/
structure AnalysisData where
  amplitude : AmplitudeResults
  spectral : SpectralResults
  patterns : PatternResults
  regions : List Region

/-- A full orchestration result. -/
structure AnalysisResult where
  id : String
  timestamp : String
  sampleCount : ℕ
  analysis : AnalysisData

/-- `analyzeAudio(audioData, options)`: runs the four sub-analyses in source
order; the `catch` block rethrows any error with its message prefixed by
`"Analysis failed: "`.  `uuidv4()` number `0` is the result id, subsequent
ones are consumed by region construction. -/
noncomputable def analyzeAudio (gen : ℕ → String) (timestamp : String)
    (audioData : List ℚ) (options : Options) : Except String AnalysisResult :=
  match analyzeSpectral audioData options with
  | .error e => .error ("Analysis failed: " ++ e)
  | .ok spectral =>
    .ok { id := gen 0
          timestamp := timestamp
          sampleCount := audioData.length
          analysis :=
            { amplitude := analyzeAmplitude audioData
              spectral := spectral
              patterns := detectPatterns audioData options
              regions := (detectRegions gen 1 audioData options).1 } }

/-- The region `applyProfile` builds for window start `i` when the profile
matches, with uuid stream position `k`. -/
noncomputable def regionAt (gen : ℕ → String) (k : ℕ) (audioData : List ℚ) (profile : Profile)
    (sampleRate : ℚ) (ws : ℕ) (i : ℕ) : Region :=
  { id := gen k
    start := (i : ℚ) / sampleRate
    «end» := ((i : ℚ) + ws) / sampleRate
    profile := profile.id
    confidence := calculateConfidence (analyzeAmplitude (jsSlice audioData i (i + ws))) profile
    data := analyzeAmplitude (jsSlice audioData i (i + ws)) }

/-- A region with its generated id removed (used to compare regions across
orchestration calls). -/
def stripRegionId (r : Region) : ℚ × ℚ × String × ℝ × AmplitudeResults :=
  (r.start, r.«end», r.profile, r.confidence, r.data)

/-- The deterministic components of an orchestration result: everything except
the generated top-level id, the timestamp, and the generated per-region ids. -/
def resultComponents (r : AnalysisResult) :
    ℕ × AmplitudeResults × SpectralResults × PatternResults × List (ℚ × ℚ × String × ℝ × AmplitudeResults) :=
  (r.sampleCount, r.analysis.amplitude, r.analysis.spectral, r.analysis.patterns,
    r.analysis.regions.map stripRegionId)

/-- A quiet profile whose `maxAmplitude` is explicitly `0` (falsy in JS). -/
def quietZeroProfile : Profile :=
  { id := "q0", type := "quiet",
    parameters := { windowSize := some 1, maxAmplitude := some 0 } }

/-- An intensity profile with `minAmplitude = 1/2`. -/
def intensityHalfProfile : Profile :=
  { id := "ih", type := "intensity",
    parameters := { windowSize := some 1, minAmplitude := some (1/2) } }

/-- An intensity profile with a negative `minAmplitude`. -/
def intensityNegProfile : Profile :=
  { id := "in", type := "intensity",
    parameters := { windowSize := some 1, minAmplitude := some (-(1/2)) } }

/-- A quiet profile with a one-sample window at 44100 Hz. -/
def quietWindowProfile : Profile :=
  { id := "qw", type := "quiet", parameters := { windowSize := some (1/44100) } }

/-- Options used to exercise the full orchestration on a tiny buffer. -/
def demoOptions : Options :=
  { sampleRate := some 44100, profiles := [quietWindowProfile] }

section AmplitudeLemmas

@[simp] lemma analyzeAmplitude_rms (w : List ℚ) :
    (analyzeAmplitude w).rms = Real.sqrt ((absSumSquares w / (w.length : ℚ) : ℚ) : ℝ) := rfl

@[simp] lemma analyzeAmplitude_peak (w : List ℚ) :
    (analyzeAmplitude w).peak = peakVal w := rfl

@[simp] lemma analyzeAmplitude_average (w : List ℚ) :
    (analyzeAmplitude w).average = absSum w / (w.length : ℚ) := rfl

@[simp] lemma analyzeAmplitude_zeroCrossings (w : List ℚ) :
    (analyzeAmplitude w).zeroCrossings = countZeroCrossings w := rfl

lemma le_foldl_max (l : List ℚ) (init : ℚ) :
    init ≤ l.foldl (fun p x => max p |x|) init := by
  induction l generalizing init with
  | nil => simp
  | cons a t ih =>
    rw [List.foldl_cons]
    exact le_trans (le_max_left init |a|) (ih (max init |a|))

lemma abs_le_foldl_max (l : List ℚ) (init : ℚ) (x : ℚ) (hx : x ∈ l) :
    |x| ≤ l.foldl (fun p y => max p |y|) init := by
  induction l generalizing init with
  | nil => cases hx
  | cons a t ih =>
    rw [List.foldl_cons]
    rcases List.mem_cons.mp hx with h | h
    · subst h; exact le_trans (le_max_right init |x|) (le_foldl_max t _)
    · exact ih _ h

lemma foldl_max_cases (l : List ℚ) (init : ℚ) :
    l.foldl (fun p y => max p |y|) init = init ∨
      ∃ x ∈ l, l.foldl (fun p y => max p |y|) init = |x| := by
  induction l generalizing init with
  | nil => exact Or.inl rfl
  | cons a t ih =>
    rw [List.foldl_cons]
    rcases ih (max init |a|) with h | ⟨x, hx, h⟩
    · rcases le_total |a| init with hle | hle
      · exact Or.inl (by rw [h, max_eq_left hle])
      · exact Or.inr ⟨a, List.mem_cons_self _ _, by rw [h, max_eq_right hle]⟩
    · exact Or.inr ⟨x, List.mem_cons_of_mem _ hx, h⟩

lemma peakVal_nonneg (l : List ℚ) : 0 ≤ peakVal l := le_foldl_max l 0

lemma abs_le_peakVal {l : List ℚ} {x : ℚ} (hx : x ∈ l) : |x| ≤ peakVal l :=
  abs_le_foldl_max l 0 x hx

lemma exists_abs_eq_peakVal {l : List ℚ} (h : l ≠ []) : ∃ x ∈ l, |x| = peakVal l := by
  obtain ⟨a, t, rfl⟩ := List.exists_cons_of_ne_nil h
  unfold peakVal
  rw [List.foldl_cons, max_eq_right (abs_nonneg a)]
  rcases foldl_max_cases t |a| with h1 | ⟨x, hx, h1⟩
  · exact ⟨a, List.mem_cons_self _ _, h1.symm⟩
  · exact ⟨x, List.mem_cons_of_mem _ hx, h1.symm⟩

lemma sum_le_of_forall_le (l : List ℚ) (c : ℚ) (h : ∀ x ∈ l, x ≤ c) :
    l.sum ≤ (l.length : ℚ) * c := by
  induction l with
  | nil => simp
  | cons a t ih =>
    have ha := h a (List.mem_cons_self _ _)
    have ht := ih (fun x hx => h x (List.mem_cons_of_mem _ hx))
    simp only [List.sum_cons, List.length_cons]
    push_cast
    linarith

lemma sum_eq_iff_forall_eq (l : List ℚ) (c : ℚ) (h : ∀ x ∈ l, x ≤ c) :
    l.sum = (l.length : ℚ) * c ↔ ∀ x ∈ l, x = c := by
  induction l with
  | nil => simp
  | cons a t ih =>
    have ha := h a (List.mem_cons_self _ _)
    have htle := sum_le_of_forall_le t c (fun x hx => h x (List.mem_cons_of_mem _ hx))
    have iht := ih (fun x hx => h x (List.mem_cons_of_mem _ hx))
    simp only [List.sum_cons, List.length_cons, List.mem_cons]
    constructor
    · intro heq
      have hac : a = c := by push_cast at heq; linarith
      have hts : t.sum = (t.length : ℚ) * c := by push_cast at heq; linarith
      intro x hx
      rcases hx with rfl | hx
      · exact hac
      · exact iht.mp hts x hx
    · intro hall
      have hac : a = c := hall a (Or.inl rfl)
      have hts : t.sum = (t.length : ℚ) * c := iht.mpr (fun x hx => hall x (Or.inr hx))
      rw [hac, hts]
      push_cast
      ring

lemma absSumSquares_le (w : List ℚ) :
    absSumSquares w ≤ (w.length : ℚ) * (peakVal w * peakVal w) := by
  have h : ∀ y ∈ w.map (fun x => |x| * |x|), y ≤ peakVal w * peakVal w := by
    intro y hy
    obtain ⟨x, hx, rfl⟩ := List.mem_map.mp hy
    exact mul_le_mul (abs_le_peakVal hx) (abs_le_peakVal hx) (abs_nonneg x) (peakVal_nonneg w)
  simpa [absSumSquares] using sum_le_of_forall_le _ _ h

lemma absSumSquares_nonneg (w : List ℚ) : 0 ≤ absSumSquares w := by
  unfold absSumSquares
  apply List.sum_nonneg
  intro y hy
  obtain ⟨x, _, rfl⟩ := List.mem_map.mp hy
  positivity

lemma absSumSquares_eq_iff (w : List ℚ) :
    absSumSquares w = (w.length : ℚ) * (peakVal w * peakVal w) ↔
      ∀ x ∈ w, |x| = peakVal w := by
  have h : ∀ y ∈ w.map (fun x => |x| * |x|), y ≤ peakVal w * peakVal w := by
    intro y hy
    obtain ⟨x, hx, rfl⟩ := List.mem_map.mp hy
    exact mul_le_mul (abs_le_peakVal hx) (abs_le_peakVal hx) (abs_nonneg x) (peakVal_nonneg w)
  have base := sum_eq_iff_forall_eq (w.map (fun x => |x| * |x|)) (peakVal w * peakVal w) h
  rw [List.length_map] at base
  unfold absSumSquares
  refine base.trans ⟨?_, ?_⟩
  · intro hall x hx
    exact (mul_self_inj (abs_nonneg x) (peakVal_nonneg w)).mp
      (hall (|x| * |x|) (List.mem_map_of_mem _ hx))
  · intro hall y hy
    obtain ⟨x, hx, rfl⟩ := List.mem_map.mp hy
    rw [hall x hx]

lemma rms_peak_iff (w : List ℚ) (h : w ≠ []) :
    (analyzeAmplitude w).rms ≤ (((analyzeAmplitude w).peak : ℚ) : ℝ) ∧
    ((analyzeAmplitude w).rms = (((analyzeAmplitude w).peak : ℚ) : ℝ) ↔
      ∀ x ∈ w, |x| = peakVal w) := by
  have hn : 0 < (w.length : ℚ) := by
    have := List.length_pos.mpr h
    exact_mod_cast this
  have hSn_nonneg : (0 : ℚ) ≤ absSumSquares w / (w.length : ℚ) :=
    div_nonneg (absSumSquares_nonneg w) (le_of_lt hn)
  have hdiv : (absSumSquares w / (w.length : ℚ) : ℚ) ≤ peakVal w * peakVal w := by
    rw [div_le_iff₀ hn]
    calc absSumSquares w ≤ (w.length : ℚ) * (peakVal w * peakVal w) := absSumSquares_le w
      _ = peakVal w * peakVal w * (w.length : ℚ) := by ring
  have hP : (0 : ℝ) ≤ ((peakVal w : ℚ) : ℝ) := by exact_mod_cast peakVal_nonneg w
  constructor
  · rw [analyzeAmplitude_rms, analyzeAmplitude_peak]
    calc Real.sqrt ((absSumSquares w / (w.length : ℚ) : ℚ) : ℝ)
        ≤ Real.sqrt (((peakVal w * peakVal w : ℚ) : ℚ) : ℝ) := by
          apply Real.sqrt_le_sqrt; exact_mod_cast hdiv
      _ = ((peakVal w : ℚ) : ℝ) := by push_cast; exact Real.sqrt_mul_self hP
  · rw [analyzeAmplitude_rms, analyzeAmplitude_peak]
    have hstep : Real.sqrt ((absSumSquares w / (w.length : ℚ) : ℚ) : ℝ) = ((peakVal w : ℚ) : ℝ) ↔
        absSumSquares w / (w.length : ℚ) = peakVal w * peakVal w := by
      constructor
      · intro heq
        have hsq : ((absSumSquares w / (w.length : ℚ) : ℚ) : ℝ) = ((peakVal w : ℚ) : ℝ) ^ 2 := by
          rw [← heq, Real.sq_sqrt (by exact_mod_cast hSn_nonneg)]
        have : ((absSumSquares w / (w.length : ℚ) : ℚ) : ℝ) = (((peakVal w * peakVal w : ℚ) : ℚ) : ℝ) := by
          rw [hsq]; push_cast; ring
        exact_mod_cast this
      · intro heq
        rw [show ((absSumSquares w / (w.length : ℚ) : ℚ) : ℝ) = (((peakVal w * peakVal w : ℚ) : ℚ) : ℝ) by
          exact_mod_cast congrArg (fun q : ℚ => (q : ℝ)) heq]
        push_cast
        exact Real.sqrt_mul_self hP
    rw [hstep, div_eq_iff (ne_of_gt hn),
      show peakVal w * peakVal w * (w.length : ℚ) = (w.length : ℚ) * (peakVal w * peakVal w) by ring]
    exact absSumSquares_eq_iff w

/-- Claim C1: for every non-empty window of samples, the amplitude descriptor
returned by `analyzeAmplitude` satisfies `rms ≤ peak`, with equality exactly
when the window is constant-magnitude (all samples share one absolute value). -/
theorem C1_rms_le_peak (w : List ℚ) (h : w ≠ []) :
    (analyzeAmplitude w).rms ≤ (((analyzeAmplitude w).peak : ℚ) : ℝ) ∧
    ((analyzeAmplitude w).rms = (((analyzeAmplitude w).peak : ℚ) : ℝ) ↔
      ∀ x ∈ w, ∀ y ∈ w, |x| = |y|) := by
  obtain ⟨hle, hiff⟩ := rms_peak_iff w h
  refine ⟨hle, hiff.trans ⟨?_, ?_⟩⟩
  · intro hall x hx y hy
    rw [hall x hx, hall y hy]
  · intro hconst x hx
    obtain ⟨z, hz, hzP⟩ := exists_abs_eq_peakVal h
    exact (hconst x hx z hz).trans hzP

/-- Witness for C1 at the concrete window `[2, -2]`. -/
theorem C1_rms_le_peak_witness :
    (([2, -2] : List ℚ) ≠ []) ∧
    ((analyzeAmplitude [2, -2]).rms ≤ (((analyzeAmplitude [2, -2]).peak : ℚ) : ℝ) ∧
    ((analyzeAmplitude [2, -2]).rms = (((analyzeAmplitude [2, -2]).peak : ℚ) : ℝ) ↔
      ∀ x ∈ ([2, -2] : List ℚ), ∀ y ∈ ([2, -2] : List ℚ), |x| = |y|)) :=
  ⟨by decide, C1_rms_le_peak [2, -2] (by decide)⟩

end AmplitudeLemmas

section ProfileLemmas

lemma mem_applyProfileAux {gen : ℕ → String} {audioData : List ℚ} {p : Profile} {sr : ℚ}
    {ws : ℕ} {starts : List ℕ} {next : ℕ} {r : Region}
    (hr : r ∈ (applyProfileAux gen audioData p sr ws starts next).1) :
    ∃ i ∈ starts, (∃ k, r = regionAt gen k audioData p sr ws i) ∧
      profileMatches p (analyzeAmplitude (jsSlice audioData i (i + ws)))
        (jsSlice audioData i (i + ws)) = true := by
  induction starts generalizing next with
  | nil => simp [applyProfileAux] at hr
  | cons i rest ih =>
    rw [applyProfileAux] at hr
    by_cases hm : profileMatches p (analyzeAmplitude (jsSlice audioData i (i + ws)))
        (jsSlice audioData i (i + ws)) = true
    · simp only [hm, if_true, List.mem_cons] at hr
      rcases hr with rfl | hr
      · exact ⟨i, List.mem_cons_self _ _, ⟨next, rfl⟩, hm⟩
      · obtain ⟨j, hj, hk, hmj⟩ := ih hr
        exact ⟨j, List.mem_cons_of_mem _ hj, hk, hmj⟩
    · rw [Bool.not_eq_true] at hm
      simp only [hm, Bool.false_eq_true, if_false] at hr
      obtain ⟨j, hj, hk, hmj⟩ := ih hr
      exact ⟨j, List.mem_cons_of_mem _ hj, hk, hmj⟩

lemma applyProfileAux_mem_of_match (gen : ℕ → String) (sr : ℚ) {audioData : List ℚ}
    {p : Profile} {ws : ℕ} {starts : List ℕ} {i : ℕ}
    (hi : i ∈ starts)
    (hm : profileMatches p (analyzeAmplitude (jsSlice audioData i (i + ws)))
        (jsSlice audioData i (i + ws)) = true) :
    ∀ next, ∃ r ∈ (applyProfileAux gen audioData p sr ws starts next).1,
      ∃ k, r = regionAt gen k audioData p sr ws i := by
  induction starts with
  | nil => cases hi
  | cons j rest ih =>
    intro next
    rw [applyProfileAux]
    rcases List.mem_cons.mp hi with rfl | hi'
    · simp only [hm, if_true, List.mem_cons]
      exact ⟨regionAt gen next audioData p sr ws i, Or.inl rfl, next, rfl⟩
    · by_cases hmj : profileMatches p (analyzeAmplitude (jsSlice audioData j (j + ws)))
          (jsSlice audioData j (j + ws)) = true
      · simp only [hmj, if_true, List.mem_cons]
        obtain ⟨r, hr, hk⟩ := ih hi' (next + 1)
        exact ⟨r, Or.inr hr, hk⟩
      · rw [Bool.not_eq_true] at hmj
        simp only [hmj, Bool.false_eq_true, if_false]
        exact ih hi' next

lemma calculateConfidence_bounds (a : AmplitudeResults) (p : Profile) :
    0 ≤ calculateConfidence a p ∧ calculateConfidence a p ≤ 1 := by
  simp only [calculateConfidence]
  exact ⟨le_max_left _ _, max_le zero_le_one (min_le_left _ _)⟩

lemma pairwise_windowStarts (len ws : ℕ) :
    (windowStarts len ws).Pairwise (fun i j => i + ws ≤ j) := by
  unfold windowStarts
  generalize (len - 1) / ws = n
  generalize hstart : 0 = a
  clear hstart
  induction n generalizing a with
  | zero => simp
  | succ m ih =>
    rw [List.range'_succ]
    refine List.Pairwise.cons ?_ (ih (a + ws))
    intro j hj
    obtain ⟨t, _, rfl⟩ := List.mem_range'.mp hj
    exact Nat.le_add_right _ _

/-- Claim C2: every region emitted by `applyProfile` (for a positive sample
rate and a profile whose effective window size is at least one sample) has
confidence in `[0, 1]` and `start < end`. -/
theorem C2_region_invariants (gen : ℕ → String) (next : ℕ) (audioData : List ℚ)
    (p : Profile) (sr : ℚ) (hsr : 0 < sr) (hws : 1 ≤ profileWindowSamples p sr) :
    ∀ r ∈ (applyProfile gen next audioData p sr).1,
      (0 ≤ r.confidence ∧ r.confidence ≤ 1) ∧ r.start < r.«end» := by
  intro r hr
  simp only [applyProfile] at hr
  obtain ⟨i, _, ⟨k, rfl⟩, _⟩ := mem_applyProfileAux hr
  refine ⟨calculateConfidence_bounds _ _, ?_⟩
  simp only [regionAt]
  apply div_lt_div_of_pos_right _ hsr
  have h0 : (0 : ℚ) < (profileWindowSamples p sr : ℚ) := by exact_mod_cast hws
  linarith

/-- Witness for C2: a quiet profile over a 2-sample buffer at sample rate 1. -/
theorem C2_region_invariants_witness :
    (0 : ℚ) < 1 ∧ 1 ≤ profileWindowSamples ⟨"q", "quiet", {}⟩ 1 ∧
    ∀ r ∈ (applyProfile (fun _ => "id") 0 [0, 0] ⟨"q", "quiet", {}⟩ 1).1,
      (0 ≤ r.confidence ∧ r.confidence ≤ 1) ∧ r.start < r.«end» :=
  ⟨by norm_num, by norm_num [profileWindowSamples, jsOr],
    C2_region_invariants (fun _ => "id") 0 [0, 0] ⟨"q", "quiet", {}⟩ 1 (by norm_num)
      (by norm_num [profileWindowSamples, jsOr])⟩

/-- Claim C10: for a single profile (positive sample rate, effective window of
at least one sample) the regions `applyProfile` returns are in strictly
increasing start order and pairwise non-overlapping (`end ≤ start` of any
later region). -/
theorem C10_regions_ordered (gen : ℕ → String) (next : ℕ) (audioData : List ℚ)
    (p : Profile) (sr : ℚ) (hsr : 0 < sr) (hws : 1 ≤ profileWindowSamples p sr) :
    ((applyProfile gen next audioData p sr).1).Pairwise
      (fun r s => r.start < s.start ∧ r.«end» ≤ s.start) := by
  simp only [applyProfile]
  have hgrid := pairwise_windowStarts audioData.length (profileWindowSamples p sr)
  generalize hstarts : windowStarts audioData.length (profileWindowSamples p sr) = starts
  rw [hstarts] at hgrid
  clear hstarts
  set ws := profileWindowSamples p sr with hws'
  clear_value ws
  induction starts generalizing next with
  | nil => simp [applyProfileAux]
  | cons i rest ih =>
    rw [applyProfileAux]
    have hhead := List.pairwise_cons.mp hgrid
    by_cases hm : profileMatches p (analyzeAmplitude (jsSlice audioData i (i + ws)))
        (jsSlice audioData i (i + ws)) = true
    · simp only [hm, if_true]
      refine List.Pairwise.cons ?_ (ih (next + 1) hhead.2)
      intro s hs
      obtain ⟨j, hj, ⟨k, rfl⟩, _⟩ := mem_applyProfileAux hs
      have hij : i + ws ≤ j := hhead.1 j hj
      have h0 : (0 : ℚ) < (ws : ℚ) := by exact_mod_cast hws
      have hijq : (i : ℚ) + (ws : ℚ) ≤ (j : ℚ) := by exact_mod_cast hij
      constructor
      · simp only [regionAt]
        apply div_lt_div_of_pos_right _ hsr
        linarith
      · simp only [regionAt]
        exact (div_le_div_iff_of_pos_right hsr).mpr hijq
    · rw [Bool.not_eq_true] at hm
      simp only [hm, Bool.false_eq_true, if_false]
      exact ih next hhead.2

/-- Witness for C10: a quiet profile over a 3-sample buffer at sample rate 1. -/
theorem C10_regions_ordered_witness :
    (0 : ℚ) < 1 ∧ 1 ≤ profileWindowSamples ⟨"q", "quiet", {}⟩ 1 ∧
    ((applyProfile (fun _ => "w") 0 [0, 0, 0] ⟨"q", "quiet", {}⟩ 1).1).Pairwise
      (fun r s => r.start < s.start ∧ r.«end» ≤ s.start) :=
  ⟨by norm_num, by norm_num [profileWindowSamples, jsOr],
    C10_regions_ordered (fun _ => "w") 0 [0, 0, 0] ⟨"q", "quiet", {}⟩ 1 (by norm_num)
      (by norm_num [profileWindowSamples, jsOr])⟩

end ProfileLemmas

section MatchLemmas

lemma analyzeAmplitude_rms_singleton (x : ℚ) : (analyzeAmplitude [x]).rms = |(x : ℝ)| := by
  simp [analyzeAmplitude_rms, absSumSquares]
  rw [Real.sqrt_mul_self_eq_abs]

lemma profileMatches_quiet {p : Profile} (a : AmplitudeResults) (w : List ℚ)
    (htype : p.type = "quiet") :
    (profileMatches p a w = true) ↔
      a.rms < ((jsOr p.parameters.maxAmplitude (1/10) : ℚ) : ℝ) := by
  simp [profileMatches, htype]

lemma profileMatches_intensity {p : Profile} (a : AmplitudeResults) (w : List ℚ)
    (htype : p.type = "intensity") :
    (profileMatches p a w = true) ↔
      ((jsOr p.parameters.minAmplitude (7/10) : ℚ) : ℝ) < a.rms := by
  simp [profileMatches, htype]

lemma calculateConfidence_quiet {p : Profile} (a : AmplitudeResults)
    (htype : p.type = "quiet") :
    calculateConfidence a p =
      max 0 (min 1 (max 0 (1 - a.rms / ((jsOr p.parameters.maxAmplitude (1/10) : ℚ) : ℝ)))) := by
  simp [calculateConfidence, htype]

lemma calculateConfidence_intensity {p : Profile} (a : AmplitudeResults)
    (htype : p.type = "intensity") :
    calculateConfidence a p =
      max 0 (min 1 (min 1 (a.rms / ((jsOr p.parameters.minAmplitude (7/10) : ℚ) : ℝ)))) := by
  simp [calculateConfidence, htype]

lemma clamp_max_zero (c : ℝ) : max 0 (min 1 (max 0 c)) = max 0 (min 1 c) := by
  rcases le_total c 0 with h | h
  · rw [max_eq_left h, min_eq_right (h.trans zero_le_one), min_eq_right zero_le_one,
      max_self, max_eq_left h]
  · rw [max_eq_right h]

lemma div_nat_inj {i j : ℕ} {sr : ℚ} (hsr : 0 < sr) (h : (i : ℚ) / sr = (j : ℚ) / sr) :
    i = j := by
  field_simp at h
  exact_mod_cast h

/-- Evaluation helper: for a 2-sample buffer and a profile whose effective
window is one sample, the loop inspects exactly the window `[x]` starting at
offset `0`. -/
lemma applyProfile_single_window (gen : ℕ → String) (next : ℕ) (x y : ℚ) (p : Profile)
    (sr : ℚ) (hws : profileWindowSamples p sr = 1) :
    (applyProfile gen next [x, y] p sr).1 =
      if profileMatches p (analyzeAmplitude [x]) [x] = true then
        [regionAt gen next [x, y] p sr 1 0]
      else [] := by
  simp only [applyProfile, hws]
  have hstarts : windowStarts 2 1 = [0] := by decide
  have hsl : jsSlice [x, y] 0 (0 + 1) = [x] := rfl
  rw [show ([x, y] : List ℚ).length = 2 by rfl, hstarts, applyProfileAux, hsl]
  by_cases hm : profileMatches p (analyzeAmplitude [x]) [x] = true
  · simp [hm, applyProfileAux, regionAt, show jsSlice [x, y] 0 1 = [x] from rfl]
  · rw [Bool.not_eq_true] at hm
    simp [hm, applyProfileAux]

lemma clamp_eval {c : ℝ} (h0 : 0 ≤ c) (h1 : c ≤ 1) : max 0 (min 1 (max 0 c)) = c := by
  rw [max_eq_right h0, min_eq_right h1, max_eq_right h0]

end MatchLemmas

section QuietIntensityClaims

/-- Claim C4 (amended): for a quiet profile a window on the grid matches
exactly when its rms is strictly below the *effective* `maxAmplitude`
(`maxAmplitude || 0.1`, per JS falsy-default), the emitted region's confidence
is `clamp(1 - rms/maxAmplitude, 0, 1)`; concretely, with `maxAmplitude = 0.1`
an rms-0.05 window matches with confidence 0.5, and an intensity profile with
`minAmplitude = 0.7` does not match an rms-0.35 window. -/
theorem C4_quiet_match_confidence (gen : ℕ → String) (next : ℕ) (audioData : List ℚ)
    (p : Profile) (sr : ℚ) (htype : p.type = "quiet") (hsr : 0 < sr) :
    (∀ i ∈ windowStarts audioData.length (profileWindowSamples p sr),
      ((∃ r ∈ (applyProfile gen next audioData p sr).1, r.start = (i : ℚ) / sr) ↔
        (analyzeAmplitude (jsSlice audioData i (i + profileWindowSamples p sr))).rms <
          ((jsOr p.parameters.maxAmplitude (1/10) : ℚ) : ℝ)) ∧
      (∀ r ∈ (applyProfile gen next audioData p sr).1, r.start = (i : ℚ) / sr →
        r.confidence = max 0 (min 1 (1 -
          (analyzeAmplitude (jsSlice audioData i (i + profileWindowSamples p sr))).rms /
            ((jsOr p.parameters.maxAmplitude (1/10) : ℚ) : ℝ))))) ∧
    ((applyProfile (fun _ => "q") 0 [1/20, 0]
        ⟨"qp", "quiet", { windowSize := some 1, maxAmplitude := some (1/10) }⟩ 1).1.map
      Region.confidence = [1/2]) ∧
    ((applyProfile (fun _ => "i") 0 [7/20, 0]
        ⟨"ip", "intensity", { windowSize := some 1, minAmplitude := some (7/10) }⟩ 1).1 = []) := by
  refine ⟨?_, ?_, ?_⟩
  · intro i hi
    constructor
    · constructor
      · rintro ⟨r, hr, hstart⟩
        simp only [applyProfile] at hr
        obtain ⟨j, _, ⟨k, rfl⟩, hmj⟩ := mem_applyProfileAux hr
        simp only [regionAt] at hstart
        obtain rfl := div_nat_inj hsr hstart
        exact (profileMatches_quiet _ _ htype).mp hmj
      · intro hrms
        have hm := (profileMatches_quiet
          (analyzeAmplitude (jsSlice audioData i (i + profileWindowSamples p sr)))
          (jsSlice audioData i (i + profileWindowSamples p sr)) htype).mpr hrms
        obtain ⟨r, hr, k, rfl⟩ := applyProfileAux_mem_of_match gen sr hi hm next
        exact ⟨regionAt gen k audioData p sr (profileWindowSamples p sr) i,
          by simpa [applyProfile] using hr, rfl⟩
    · intro r hr hstart
      simp only [applyProfile] at hr
      obtain ⟨j, _, ⟨k, rfl⟩, hmj⟩ := mem_applyProfileAux hr
      simp only [regionAt] at hstart ⊢
      obtain rfl := div_nat_inj hsr hstart
      rw [calculateConfidence_quiet _ htype, clamp_max_zero]
  · have habs : |(1/20 : ℝ)| = 1/20 := abs_of_pos (by norm_num)
    rw [applyProfile_single_window _ _ _ _ _ _ (by norm_num [profileWindowSamples, jsOr])]
    rw [if_pos ((profileMatches_quiet _ _ rfl).mpr (by
      rw [analyzeAmplitude_rms_singleton]
      norm_num [jsOr, habs]))]
    simp only [List.map_cons, List.map_nil, regionAt]
    rw [show jsSlice [(1 : ℚ)/20, 0] 0 (0 + 1) = [1/20] from rfl]
    rw [calculateConfidence_quiet _ rfl, analyzeAmplitude_rms_singleton]
    rw [clamp_eval (by norm_num [jsOr, habs]) (by norm_num [jsOr, habs])]
    norm_num [jsOr, habs]
  · have habs : |(7/20 : ℝ)| = 7/20 := abs_of_pos (by norm_num)
    rw [applyProfile_single_window _ _ _ _ _ _ (by norm_num [profileWindowSamples, jsOr])]
    have hm : ¬ (profileMatches ⟨"ip", "intensity", { windowSize := some 1, minAmplitude := some (7/10) }⟩
        (analyzeAmplitude [7/20]) [7/20] = true) := by
      rw [profileMatches_intensity _ _ rfl, analyzeAmplitude_rms_singleton]
      norm_num [jsOr, habs]
    rw [if_neg hm]

/-- Witness for C4 at a quiet profile with default parameters, buffer `[0, 0]`,
sample rate `1`. -/
theorem C4_quiet_match_confidence_witness :
    ((⟨"q", "quiet", {}⟩ : Profile).type = "quiet") ∧ (0 : ℚ) < 1 ∧
    ((∀ i ∈ windowStarts ([0, 0] : List ℚ).length (profileWindowSamples ⟨"q", "quiet", {}⟩ 1),
      ((∃ r ∈ (applyProfile (fun _ => "w4") 0 [0, 0] ⟨"q", "quiet", {}⟩ 1).1,
          r.start = (i : ℚ) / 1) ↔
        (analyzeAmplitude (jsSlice [0, 0] i (i + profileWindowSamples ⟨"q", "quiet", {}⟩ 1))).rms <
          ((jsOr (⟨"q", "quiet", {}⟩ : Profile).parameters.maxAmplitude (1/10) : ℚ) : ℝ)) ∧
      (∀ r ∈ (applyProfile (fun _ => "w4") 0 [0, 0] ⟨"q", "quiet", {}⟩ 1).1,
          r.start = (i : ℚ) / 1 →
        r.confidence = max 0 (min 1 (1 -
          (analyzeAmplitude (jsSlice [0, 0] i (i + profileWindowSamples ⟨"q", "quiet", {}⟩ 1))).rms /
            ((jsOr (⟨"q", "quiet", {}⟩ : Profile).parameters.maxAmplitude (1/10) : ℚ) : ℝ))))) ∧
    ((applyProfile (fun _ => "q") 0 [1/20, 0]
        ⟨"qp", "quiet", { windowSize := some 1, maxAmplitude := some (1/10) }⟩ 1).1.map
      Region.confidence = [1/2]) ∧
    ((applyProfile (fun _ => "i") 0 [7/20, 0]
        ⟨"ip", "intensity", { windowSize := some 1, minAmplitude := some (7/10) }⟩ 1).1 = [])) :=
  ⟨rfl, by norm_num,
    C4_quiet_match_confidence (fun _ => "w4") 0 [0, 0] ⟨"q", "quiet", {}⟩ 1 rfl (by norm_num)⟩

/-- Counterexample to C4 as stated: a quiet profile with parameter
`maxAmplitude = 0`.  The window `[1/20]` has rms `1/20`, which is not below
the profile's `maxAmplitude`, yet a region is emitted, because the source's
`maxAmplitude || 0.1` treats `0` as falsy and substitutes the default `0.1`. -/
theorem C4_counterexample :
    ¬ ((analyzeAmplitude [(1/20 : ℚ)]).rms < ((0 : ℚ) : ℝ)) ∧
    (applyProfile (fun _ => "c") 0 [1/20, 0] quietZeroProfile 1).1 ≠ [] := by
  have habs : |(1/20 : ℝ)| = 1/20 := abs_of_pos (by norm_num)
  constructor
  · rw [analyzeAmplitude_rms_singleton]
    exact not_lt.mpr (by norm_num [habs])
  · rw [applyProfile_single_window _ _ _ _ _ _
      (by norm_num [profileWindowSamples, jsOr, quietZeroProfile])]
    rw [if_pos ((profileMatches_quiet _ _ rfl).mpr (by
      rw [analyzeAmplitude_rms_singleton]
      norm_num [jsOr, habs, quietZeroProfile]))]
    simp

lemma intensity_clamp_nonpos {c : ℝ} (h : c ≤ 0) : max 0 (min 1 (min 1 c)) = 0 := by
  rw [min_eq_right (h.trans zero_le_one), min_eq_right (h.trans zero_le_one), max_eq_left h]

/-- Claim C9 (amended): every region an intensity profile with *positive*
effective `minAmplitude` emits has confidence exactly 1: matching forces
`rms > minAmplitude`, so `min(1, rms/minAmplitude)` clamps to 1. -/
theorem C9_intensity_confidence_one (gen : ℕ → String) (next : ℕ) (audioData : List ℚ)
    (p : Profile) (sr : ℚ) (htype : p.type = "intensity")
    (hmin : 0 < jsOr p.parameters.minAmplitude (7/10)) :
    ∀ r ∈ (applyProfile gen next audioData p sr).1, r.confidence = 1 := by
  intro r hr
  simp only [applyProfile] at hr
  obtain ⟨i, _, ⟨k, rfl⟩, hm⟩ := mem_applyProfileAux hr
  rw [profileMatches_intensity _ _ htype] at hm
  simp only [regionAt]
  rw [calculateConfidence_intensity _ htype]
  have hmpos : (0 : ℝ) < ((jsOr p.parameters.minAmplitude (7/10) : ℚ) : ℝ) := by
    exact_mod_cast hmin
  have h1 : (1 : ℝ) ≤
      (analyzeAmplitude (jsSlice audioData i (i + profileWindowSamples p sr))).rms /
        ((jsOr p.parameters.minAmplitude (7/10) : ℚ) : ℝ) := by
    rw [one_le_div hmpos]
    exact le_of_lt hm
  rw [min_eq_left h1, min_self, max_eq_right zero_le_one]

/-- Witness for C9 at an intensity profile with `minAmplitude = 1/2` over the
buffer `[3/4, 0]`. -/
theorem C9_intensity_confidence_one_witness :
    intensityHalfProfile.type = "intensity" ∧
    0 < jsOr intensityHalfProfile.parameters.minAmplitude (7/10) ∧
    ∀ r ∈ (applyProfile (fun _ => "w9") 0 [3/4, 0] intensityHalfProfile 1).1,
      r.confidence = 1 :=
  ⟨rfl, by norm_num [jsOr, intensityHalfProfile],
    C9_intensity_confidence_one (fun _ => "w9") 0 [3/4, 0] intensityHalfProfile 1 rfl
      (by norm_num [jsOr, intensityHalfProfile])⟩

/-- Counterexample to C9 as stated: with `minAmplitude = -1/2` the window
`[1/2]` matches (`1/2 > -1/2`) but its confidence evaluates to `0`, not `1`. -/
theorem C9_counterexample :
    ¬ ∀ r ∈ (applyProfile (fun _ => "c9") 0 [1/2, 0] intensityNegProfile 1).1,
        r.confidence = 1 := by
  have habs : |(1/2 : ℝ)| = 1/2 := abs_of_pos (by norm_num)
  have heval : (applyProfile (fun _ => "c9") 0 [1/2, 0] intensityNegProfile 1).1 =
      [regionAt (fun _ => "c9") 0 [1/2, 0] intensityNegProfile 1 1 0] := by
    rw [applyProfile_single_window _ _ _ _ _ _
      (by norm_num [profileWindowSamples, jsOr, intensityNegProfile])]
    rw [if_pos ((profileMatches_intensity _ _ rfl).mpr (by
      rw [analyzeAmplitude_rms_singleton]
      norm_num [jsOr, habs, intensityNegProfile]))]
  intro hall
  have hc := hall (regionAt (fun _ => "c9") 0 [1/2, 0] intensityNegProfile 1 1 0)
    (by rw [heval]; exact List.mem_singleton_self _)
  simp only [regionAt] at hc
  rw [show jsSlice [(1 : ℚ)/2, 0] 0 (0 + 1) = [1/2] from rfl] at hc
  rw [calculateConfidence_intensity _ rfl, analyzeAmplitude_rms_singleton] at hc
  rw [intensity_clamp_nonpos (by norm_num [jsOr, habs, intensityNegProfile])] at hc
  exact absurd hc (by norm_num)

end QuietIntensityClaims

section EmptyWindowClaim

/-- Claim C5 (refuted on the code): `analyzeAmplitude` performs no input
validation whatsoever — there is no `EmptyWindow` or `NonFiniteSample` error
path anywhere in it; on the zero-length window it silently divides by zero
and hands back an ordinary descriptor (in JS `rms` and `average` are `NaN`
there; in this exact model the total division `0 / 0 = 0` makes them `0`,
and `peak`, `dynamicRange`, `crestFactor`, `zeroCrossings` are `0` exactly as
in JS). -/
theorem C5_no_empty_window_error :
    analyzeAmplitude [] =
      { rms := 0, peak := 0, average := 0, dynamicRange := 0, crestFactor := 0,
        zeroCrossings := 0 } := by
  simp [analyzeAmplitude, absSum, absSumSquares, peakVal, countZeroCrossings]

end EmptyWindowClaim

section PatternClaims

lemma sq_sum_replicate_zero (n : ℕ) :
    ((List.replicate n (0 : ℚ)).map (fun x => x * x)).sum = 0 := by
  induction n with
  | zero => simp
  | succ m ih => simp [List.replicate_succ, ih]

lemma calculateRMS_replicate_zero (n : ℕ) : calculateRMS (List.replicate n (0 : ℚ)) = 0 := by
  unfold calculateRMS
  rw [sq_sum_replicate_zero]
  simp

lemma silent_patterns :
    detectPatterns (List.replicate 44100 (0 : ℚ)) {} =
      { quietSections := (List.range' 0 9 4410).map (fun (i : ℕ) =>
          { start := (i : ℚ) / 44100, «end» := ((i : ℚ) + 4410) / 44100, rms := 0 }),
        loudSections := [], transitions := [], repetitivePatterns := [] } := by
  have hslice : ∀ a b : ℕ, jsSlice (List.replicate 44100 (0 : ℚ)) a b =
      List.replicate (min (b - a) (44100 - a)) 0 := by
    intro a b
    unfold jsSlice
    rw [List.drop_replicate, List.take_replicate]
  have hfloor : (⌊(1/10 : ℚ) * 44100⌋) = 4410 := by norm_num
  have hws : ((⌊(1/10 : ℚ) * 44100⌋).toNat) = 4410 := by rw [hfloor]; rfl
  have hcond : ((0 : ℝ) < ((1/10 : ℚ) : ℝ)) := by norm_num
  have hlist : List.range' 0 ((44100 - 1) / 4410) 4410 =
      [0, 4410, 8820, 13230, 17640, 22050, 26460, 30870, 35280] := by decide
  have hlist2 : List.range' 4410 ((44100 - 1) / 4410 - 1) 4410 =
      [4410, 8820, 13230, 17640, 22050, 26460, 30870, 35280] := by decide
  set_option maxRecDepth 10000 in
  simp only [detectPatterns, detectTransitions, windowStarts, Option.getD, jsOr,
    List.length_replicate, hws, hlist, hlist2, hslice, calculateRMS_replicate_zero,
    List.filterMap_cons, List.filterMap_nil, if_pos hcond, sub_zero, abs_zero]
  rw [if_neg (by norm_num : ¬ (((1/10 : ℚ) : ℝ) < 0))]
  norm_num

/-- Claim C3 (amended): on a 1-second all-zero buffer at 44100 Hz with default
options, `detectPatterns` classifies the first nine 0.1-second windows as
quiet — the loop bound `i < length - windowSize` being strict, the tenth
window `[0.9 s, 1.0 s)` is never examined — and `loudSections` and
`transitions` are empty. -/
theorem C3_silent_buffer :
    (detectPatterns (List.replicate 44100 (0 : ℚ)) {}).quietSections =
      (List.range' 0 9 4410).map (fun (i : ℕ) =>
        { start := (i : ℚ) / 44100, «end» := ((i : ℚ) + 4410) / 44100, rms := 0 }) ∧
    (detectPatterns (List.replicate 44100 (0 : ℚ)) {}).loudSections = [] ∧
    (detectPatterns (List.replicate 44100 (0 : ℚ)) {}).transitions = [] := by
  rw [silent_patterns]
  exact ⟨rfl, rfl, rfl⟩

/-- Counterexample to C3 as stated: the silent 1-second buffer yields nine
quiet sections, not one per each of ten 0.1-second windows. -/
theorem C3_counterexample :
    (detectPatterns (List.replicate 44100 (0 : ℚ)) {}).quietSections.length ≠ 10 := by
  rw [silent_patterns]
  show ((List.range' 0 9 4410).map (fun (i : ℕ) =>
    ({ start := (i : ℚ) / 44100, «end» := ((i : ℚ) + 4410) / 44100, rms := 0 } :
      PatternSection))).length ≠ 10
  rw [List.length_map, List.length_range']
  norm_num

end PatternClaims

section DominantFrequencyClaims

lemma mem_insertByMagnitude {x e : DominantFrequency} :
    ∀ {l : List DominantFrequency}, e ∈ insertByMagnitude x l ↔ e = x ∨ e ∈ l
  | [] => by simp [insertByMagnitude]
  | y :: ys => by
    rw [insertByMagnitude]
    by_cases h : y.magnitude < x.magnitude
    · simp [h]
    · simp only [h, if_false, List.mem_cons, @mem_insertByMagnitude x e ys]
      tauto

lemma pairwise_insertByMagnitude {x : DominantFrequency} :
    ∀ {l : List DominantFrequency},
      l.Pairwise (fun a b => b.magnitude ≤ a.magnitude) →
      (insertByMagnitude x l).Pairwise (fun a b => b.magnitude ≤ a.magnitude)
  | [], _ => by simp [insertByMagnitude]
  | y :: ys, h => by
    rw [insertByMagnitude]
    obtain ⟨hy, hys⟩ := List.pairwise_cons.mp h
    by_cases hc : y.magnitude < x.magnitude
    · rw [if_pos hc]
      refine List.Pairwise.cons ?_ h
      intro z hz
      rcases List.mem_cons.mp hz with rfl | hz
      · exact le_of_lt hc
      · exact (hy z hz).trans (le_of_lt hc)
    · rw [if_neg hc]
      refine List.Pairwise.cons ?_ (pairwise_insertByMagnitude hys)
      intro z hz
      rcases mem_insertByMagnitude.mp hz with rfl | hz
      · exact not_lt.mp hc
      · exact hy z hz

lemma pairwise_sortFold :
    ∀ (l acc : List DominantFrequency),
      acc.Pairwise (fun a b => b.magnitude ≤ a.magnitude) →
      (l.foldl (fun acc x => insertByMagnitude x acc) acc).Pairwise
        (fun a b => b.magnitude ≤ a.magnitude)
  | [], _, h => h
  | x :: xs, acc, h => pairwise_sortFold xs (insertByMagnitude x acc) (pairwise_insertByMagnitude h)

lemma mem_sortFold {e : DominantFrequency} :
    ∀ {l acc : List DominantFrequency},
      e ∈ l.foldl (fun acc x => insertByMagnitude x acc) acc ↔ e ∈ acc ∨ e ∈ l
  | [], acc => by simp
  | x :: xs, acc => by
    rw [List.foldl_cons, @mem_sortFold e xs (insertByMagnitude x acc), mem_insertByMagnitude]
    simp only [List.mem_cons]
    tauto

lemma sortByMagnitudeDesc_pairwise (l : List DominantFrequency) :
    (sortByMagnitudeDesc l).Pairwise (fun a b => b.magnitude ≤ a.magnitude) :=
  pairwise_sortFold l [] (List.Pairwise.nil)

lemma mem_sortByMagnitudeDesc {e : DominantFrequency} {l : List DominantFrequency} :
    e ∈ sortByMagnitudeDesc l ↔ e ∈ l := by
  rw [sortByMagnitudeDesc, mem_sortFold]
  simp

/-- Claim C7 (amended): `findDominantFrequencies` returns at most 5 entries,
sorted non-increasingly (not strictly: equal-magnitude bins tie) by magnitude,
and every entry is a bin of the first half of the spectrum whose magnitude
strictly exceeds 10% of the maximum magnitude. -/
theorem C7_dominant_frequencies (magnitudes : List ℝ) (sampleRate : ℚ) (fftSize : ℕ) :
    (findDominantFrequencies magnitudes sampleRate fftSize).length ≤ 5 ∧
    (findDominantFrequencies magnitudes sampleRate fftSize).Pairwise
      (fun a b => b.magnitude ≤ a.magnitude) ∧
    ∀ e ∈ findDominantFrequencies magnitudes sampleRate fftSize,
      ∃ i : ℕ, 2 * i < magnitudes.length ∧
        magnitudes.getD i 0 = e.magnitude ∧
        e.frequency = (i : ℚ) * sampleRate / (fftSize : ℚ) ∧
        ∃ maxMag, magnitudes.max? = some maxMag ∧ maxMag * (1/10) < e.magnitude := by
  unfold findDominantFrequencies
  cases hmax : magnitudes.max? with
  | none => simp
  | some maxMag =>
    refine ⟨?_, ?_, ?_⟩
    · rw [List.length_take]
      exact min_le_left _ _
    · exact (sortByMagnitudeDesc_pairwise _).sublist (List.take_sublist _ _)
    · intro e he
      have he' := List.mem_of_mem_take he
      rw [mem_sortByMagnitudeDesc] at he'
      obtain ⟨i, hi, hsome⟩ := List.mem_filterMap.mp he'
      rw [List.mem_range] at hi
      have h2i : 2 * i < magnitudes.length := by
        have := (Nat.le_div_iff_mul_le (by norm_num : 0 < 2)).mp hi
        omega
      by_cases hth : maxMag * (1/10) < magnitudes.getD i 0
      · rw [if_pos hth] at hsome
        obtain rfl := Option.some_injective _ hsome
        exact ⟨i, h2i, rfl, rfl, maxMag, rfl, hth⟩
      · rw [if_neg hth] at hsome
        cases hsome

/-- Witness for C7 at the concrete spectrum `[1, 0]`. -/
theorem C7_dominant_frequencies_witness :
    (findDominantFrequencies [1, 0] 1 2).length ≤ 5 ∧
    (findDominantFrequencies [1, 0] 1 2).Pairwise
      (fun a b => b.magnitude ≤ a.magnitude) ∧
    ∀ e ∈ findDominantFrequencies [1, 0] 1 2,
      ∃ i : ℕ, 2 * i < ([1, 0] : List ℝ).length ∧
        ([1, 0] : List ℝ).getD i 0 = e.magnitude ∧
        e.frequency = (i : ℚ) * 1 / (2 : ℚ) ∧
        ∃ maxMag, ([1, 0] : List ℝ).max? = some maxMag ∧ maxMag * (1/10) < e.magnitude :=
  C7_dominant_frequencies [1, 0] 1 2

lemma pairwise_strict_two {l : List DominantFrequency} {m1 m2 : ℝ}
    (hmap : l.map DominantFrequency.magnitude = [m1, m2])
    (hp : l.Pairwise (fun a b => b.magnitude < a.magnitude)) : m2 < m1 := by
  match l, hmap with
  | [a, b], hmap =>
    simp only [List.map_cons, List.map_nil, List.cons.injEq, and_true] at hmap
    obtain ⟨h1, h2⟩ := hmap
    have := (List.pairwise_cons.mp hp).1 b (List.mem_cons_self _ _)
    rw [h1, h2] at this
    exact this

/-- Counterexample to C7 as stated: with two equal-magnitude dominant bins
the output is not *strictly* descending in magnitude. -/
theorem C7_counterexample :
    ¬ (findDominantFrequencies [1, 1, 0, 0] 1 1).Pairwise
      (fun a b => b.magnitude < a.magnitude) := by
  intro hp
  have hmax : ([1, 1, 0, 0] : List ℝ).max? = some 1 := by
    simp only [List.max?, List.foldl]
    rw [max_self, max_eq_left (by norm_num : (0:ℝ) ≤ 1), max_eq_left (by norm_num : (0:ℝ) ≤ 1)]
  have hmap : (findDominantFrequencies [1, 1, 0, 0] 1 1).map DominantFrequency.magnitude
      = [1, 1] := by
    unfold findDominantFrequencies
    rw [hmax]
    have hrange : List.range ((([1, 1, 0, 0] : List ℝ).length + 1) / 2) = [0, 1] := by decide
    rw [hrange]
    simp only [List.filterMap_cons, List.filterMap_nil, List.getD_cons_zero,
      List.getD_cons_succ]
    rw [if_pos (by norm_num : (1:ℝ) * (1/10) < 1), if_pos (by norm_num : (1:ℝ) * (1/10) < 1)]
    simp only [sortByMagnitudeDesc, List.foldl, insertByMagnitude]
    rw [if_neg (by norm_num : ¬ ((1:ℝ) < 1))]
    simp [insertByMagnitude]
  exact absurd (pairwise_strict_two hmap hp) (by norm_num)

end DominantFrequencyClaims

section OrchestrationClaims

lemma applyWindow_length (data : List ℚ) : (applyWindow data).length = data.length := by
  simp [applyWindow]

lemma analyzeSpectral_isOk (buf : List ℚ) (opts : Options)
    (h : isPowTwo ((buf.take (opts.fftSize.getD 2048)).length) = true) :
    ∃ v, analyzeSpectral buf opts = .ok v := by
  simp only [analyzeSpectral, fftModel, applyWindow_length, h, if_true]
  exact ⟨_, rfl⟩

lemma analyzeSpectral_three_zeros :
    analyzeSpectral [0, 0, 0] {} = .error "InvalidFFTSize" := by
  have hfft : fftModel (applyWindow (([0, 0, 0] : List ℚ).take 2048)) =
      .error "InvalidFFTSize" := by
    unfold fftModel
    rw [applyWindow_length]
    rw [if_neg (by decide : ¬ (isPowTwo (([0, 0, 0] : List ℚ).take 2048).length = true))]
  simp only [analyzeSpectral, Option.getD, hfft]

/-- Claim C6 (amended): when a sub-analysis fails (in this model, the
spectral stage, the only one with an error path), the orchestration fails —
no partial result is produced — but the error is *not* propagated unmodified:
the `catch` block rethrows it with its message prefixed by
`"Analysis failed: "`. -/
theorem C6_error_wrapped (gen : ℕ → String) (ts : String) (buf : List ℚ) (opts : Options)
    (e : String) (h : analyzeSpectral buf opts = .error e) :
    analyzeAudio gen ts buf opts = .error ("Analysis failed: " ++ e) := by
  simp only [analyzeAudio, h]

/-- Witness for C6 at the 3-sample buffer (3 is not a power of two). -/
theorem C6_error_wrapped_witness :
    analyzeSpectral [0, 0, 0] {} = .error "InvalidFFTSize" ∧
    analyzeAudio (fun _ => "w6") "t" [0, 0, 0] {} =
      .error ("Analysis failed: " ++ "InvalidFFTSize") :=
  ⟨analyzeSpectral_three_zeros,
    C6_error_wrapped (fun _ => "w6") "t" [0, 0, 0] {} "InvalidFFTSize"
      analyzeSpectral_three_zeros⟩

/-- Counterexample to C6 as stated: the spectral stage fails with
`"InvalidFFTSize"`, but the orchestration does not fail with that error — it
fails with the prefixed `"Analysis failed: InvalidFFTSize"` instead. -/
theorem C6_counterexample :
    analyzeSpectral [0, 0, 0] {} = .error "InvalidFFTSize" ∧
    analyzeAudio (fun _ => "c6") "t" [0, 0, 0] {} ≠
      (.error "InvalidFFTSize" : Except String AnalysisResult) := by
  refine ⟨analyzeSpectral_three_zeros, ?_⟩
  have heq : analyzeAudio (fun _ => "c6") "t" [0, 0, 0] {} =
      .error ("Analysis failed: " ++ "InvalidFFTSize") := by
    simp only [analyzeAudio, analyzeSpectral_three_zeros]
  rw [heq]
  intro h
  have := Except.error.inj h
  exact absurd this (by decide)

lemma applyProfileAux_snd_eq (gen₁ gen₂ : ℕ → String) (audioData : List ℚ) (p : Profile)
    (sr : ℚ) (ws : ℕ) :
    ∀ (starts : List ℕ) (next : ℕ),
      (applyProfileAux gen₁ audioData p sr ws starts next).2 =
      (applyProfileAux gen₂ audioData p sr ws starts next).2
  | [], next => rfl
  | i :: rest, next => by
    rw [applyProfileAux, applyProfileAux]
    by_cases hm : profileMatches p (analyzeAmplitude (jsSlice audioData i (i + ws)))
        (jsSlice audioData i (i + ws)) = true
    · simp only [hm, if_true]
      exact applyProfileAux_snd_eq gen₁ gen₂ audioData p sr ws rest (next + 1)
    · rw [Bool.not_eq_true] at hm
      simp only [hm, Bool.false_eq_true, if_false]
      exact applyProfileAux_snd_eq gen₁ gen₂ audioData p sr ws rest next

lemma applyProfileAux_strip (gen₁ gen₂ : ℕ → String) (audioData : List ℚ) (p : Profile)
    (sr : ℚ) (ws : ℕ) :
    ∀ (starts : List ℕ) (next₁ next₂ : ℕ),
      ((applyProfileAux gen₁ audioData p sr ws starts next₁).1).map stripRegionId =
      ((applyProfileAux gen₂ audioData p sr ws starts next₂).1).map stripRegionId
  | [], _, _ => rfl
  | i :: rest, next₁, next₂ => by
    rw [applyProfileAux, applyProfileAux]
    by_cases hm : profileMatches p (analyzeAmplitude (jsSlice audioData i (i + ws)))
        (jsSlice audioData i (i + ws)) = true
    · simp only [hm, if_true, List.map_cons]
      exact congrArg₂ List.cons rfl
        (applyProfileAux_strip gen₁ gen₂ audioData p sr ws rest (next₁ + 1) (next₂ + 1))
    · rw [Bool.not_eq_true] at hm
      simp only [hm, Bool.false_eq_true, if_false]
      exact applyProfileAux_strip gen₁ gen₂ audioData p sr ws rest next₁ next₂

lemma detectRegionsFold_strip (gen₁ gen₂ : ℕ → String) (audioData : List ℚ) (sr : ℚ) :
    ∀ (ps : List Profile) (acc₁ acc₂ : List Region × ℕ),
      acc₁.1.map stripRegionId = acc₂.1.map stripRegionId → acc₁.2 = acc₂.2 →
      ((ps.foldl (fun acc profile =>
          let res := applyProfile gen₁ acc.2 audioData profile sr
          (acc.1 ++ res.1, res.2)) acc₁).1).map stripRegionId =
      ((ps.foldl (fun acc profile =>
          let res := applyProfile gen₂ acc.2 audioData profile sr
          (acc.1 ++ res.1, res.2)) acc₂).1).map stripRegionId
  | [], acc₁, acc₂, hstrip, _ => hstrip
  | p :: ps, acc₁, acc₂, hstrip, hsnd => by
    rw [List.foldl_cons, List.foldl_cons]
    refine detectRegionsFold_strip gen₁ gen₂ audioData sr ps _ _ ?_ ?_
    · simp only [List.map_append]
      rw [hstrip]
      refine congrArg₂ HAppend.hAppend rfl ?_
      simp only [applyProfile]
      rw [hsnd]
      exact applyProfileAux_strip gen₁ gen₂ audioData p sr _ _ _ _
    · simp only [applyProfile]
      rw [hsnd]
      exact applyProfileAux_snd_eq gen₁ gen₂ audioData p sr _ _ _

/-- Claim C8 (amended): the orchestration is deterministic in everything
except the generated identifiers: two calls with the same buffer and options
(but different uuid streams and timestamps) either both fail with the same
error or both succeed with the same sample count, amplitude, spectral and
pattern results, and the same regions up to each region's generated `id`
(JS generates a fresh `uuidv4()` per region, so region ids — not only the
result's top-level id and timestamp — differ between calls). -/
theorem C8_deterministic_components (gen₁ : ℕ → String) (ts₁ : String) (gen₂ : ℕ → String)
    (ts₂ : String) (buf : List ℚ) (opts : Options) :
    Except.map resultComponents ( analyzeAudio gen₁ ts₁ buf opts) =
    Except.map resultComponents ( analyzeAudio gen₂ ts₂ buf opts) := by
  unfold analyzeAudio
  cases h : analyzeSpectral buf opts with
  | error e => rfl
  | ok s =>
    simp only [Except.map, resultComponents]
    refine congrArg Except.ok ?_
    refine congrArg (fun rs => (buf.length, analyzeAmplitude buf, s, detectPatterns buf opts, rs)) ?_
    simp only [detectRegions]
    exact detectRegionsFold_strip gen₁ gen₂ buf (opts.sampleRate.getD 44100)
      opts.profiles ([], 1) ([], 1) rfl rfl

/-- Counterexample to C8 as stated: with a quiet profile matching one window,
two calls on the identical buffer and options return regions differing in
their (freshly generated) region ids, so the `regions` components are not
identical — more than the top-level id and timestamp differs. -/
theorem C8_counterexample :
    Except.map (fun r => r.analysis.regions.map Region.id)
        ( analyzeAudio (fun _ => "a") "t" [1/20, 0] demoOptions) = .ok ["a"] ∧
    Except.map (fun r => r.analysis.regions.map Region.id)
        ( analyzeAudio (fun _ => "b") "t" [1/20, 0] demoOptions) = .ok ["b"] ∧
    (["a"] : List String) ≠ ["b"] := by
  have habs : |(1/20 : ℝ)| = 1/20 := abs_of_pos (by norm_num)
  have hm : profileMatches quietWindowProfile (analyzeAmplitude [1/20]) [1/20] = true := by
    rw [profileMatches_quiet _ _ rfl, analyzeAmplitude_rms_singleton]
    norm_num [jsOr, habs, quietWindowProfile]
  have happ : ∀ gen : ℕ → String,
      (applyProfile gen 1 [1/20, 0] quietWindowProfile 44100).1 =
        [regionAt gen 1 [1/20, 0] quietWindowProfile 44100 1 0] := by
    intro gen
    rw [applyProfile_single_window _ _ _ _ _ _
      (by norm_num [profileWindowSamples, jsOr, quietWindowProfile])]
    rw [if_pos hm]
  have hdet : ∀ gen : ℕ → String,
      (detectRegions gen 1 [1/20, 0] demoOptions).1 =
        [regionAt gen 1 [1/20, 0] quietWindowProfile 44100 1 0] := by
    intro gen
    simp only [detectRegions, demoOptions, Option.getD, List.foldl_cons, List.foldl_nil]
    rw [happ gen]
    rfl
  obtain ⟨v, hv⟩ := analyzeSpectral_isOk [1/20, 0] demoOptions (by decide)
  refine ⟨?_, ?_, by decide⟩
  · simp only [analyzeAudio, hv, Except.map]
    rw [hdet (fun _ => "a")]
    rfl
  · simp only [analyzeAudio, hv, Except.map]
    rw [hdet (fun _ => "b")]
    rfl

end OrchestrationClaims

end Waverider
